import Mathlib

/-
Verification of the vaccipy CLI front-end (src/main.py) and the GUI
contact-data dialog (src/tools/gui/qtkontakt.py).

Python strings are modelled as List Char; Python str.split, str.strip and
str formatting of integers are modelled by the structural functions below.
Helpers imported from modules that are not part of the sources at hand
(tools/utils.py, tools/kontaktdaten.py, tools/its.py) are modelled from the
specification and marked as such in their doc comments.
-/

namespace Vaccipy

/-- Characters stripped by Python str.strip (the whitespace actually
occurring in interactive input). -/
def isSpaceChar (c : Char) : Bool :=
  c = ' ' || c = '\t' || c = '\n' || c = '\r'

/-- Models Python str.strip: removes leading and trailing whitespace. -/
def trimChars (l : List Char) : List Char :=
  ((l.dropWhile isSpaceChar).reverse.dropWhile isSpaceChar).reverse

/-- Models Python str.split(sep) for a one-character separator: splits at
every occurrence, keeping empty segments; the empty string yields one empty
segment, as in Python. -/
def splitOnChar (c : Char) : List Char → List (List Char)
  | [] => [[]]
  | x :: xs =>
    if x = c then [] :: splitOnChar c xs
    else
      match splitOnChar c xs with
      | [] => [[x]]
      | y :: ys => (x :: y) :: ys

/-- Decimal digit character for a digit value below ten. -/
def digitChar (d : Nat) : Char := Char.ofNat (48 + d)

/-- Numeric value of a decimal digit character. -/
def charToDigit (c : Char) : Nat := c.toNat - 48

/-- Whether a character is a decimal digit. -/
def isDigitChar (c : Char) : Bool := 48 ≤ c.toNat && c.toNat ≤ 57

/-- Fuel-driven decimal rendering of a natural number, most significant
digit first.  The fuel argument only serves termination; any fuel above the
number itself yields the same result. -/
def renderNatAux : Nat → Nat → List Char
  | 0, _ => []
  | fuel + 1, n =>
    if n < 10 then [digitChar n]
    else renderNatAux fuel (n / 10) ++ [digitChar (n % 10)]

/-- Models Python str(n) for a natural number: its decimal digit string. -/
def renderNat (n : Nat) : List Char := renderNatAux (n + 1) n

/-- Numeric value of a digit string, most significant digit first. -/
def charsToNat (cs : List Char) : Nat :=
  cs.foldl (fun a c => 10 * a + charToDigit c) 0

/-- Parses a nonempty all-digit string to its numeric value; anything else
is rejected. -/
def parseDigits (cs : List Char) : Option Nat :=
  if cs ≠ [] && cs.all isDigitChar then some (charsToNat cs) else none

/-- Modelled from the spec: the helper unique from tools/utils.py is not
among the sources at hand.  Per the spec, postal codes (and codes) are
deduplicated while staying order-preserving for display, i.e. the first
occurrence of each entry is kept in entry order.  The accumulator holds the
entries already seen. -/
def uniqueAux {α : Type} [DecidableEq α] (seen : List α) : List α → List α
  | [] => []
  | x :: xs =>
    if x ∈ seen then uniqueAux seen xs
    else x :: uniqueAux (x :: seen) xs

/-- Modelled from the spec: order-preserving deduplication keeping first
occurrences, the behaviour of tools.utils.unique. -/
def unique {α : Type} [DecidableEq α] (l : List α) : List α := uniqueAux [] l

/-- The comma-separated entries of an input string, each stripped of
surrounding whitespace; models the list comprehension
for plz in x.split(",") with plz.strip() in src/main.py lines 57 and 69. -/
def split_strip (s : List Char) : List (List Char) :=
  (splitOnChar ',' s).map trimChars

/-- The transformer applied to the interactive postal-code input (src/main.py
line 57) and, identically, to the registration-code input (line 69):
split on commas, strip each entry, deduplicate. -/
def parse_comma_input (s : List Char) : List (List Char) :=
  unique (split_strip s)

/-- Modelled from the spec: tools.kontaktdaten.decode_wochentag is not among
the sources at hand.  It maps a German weekday short name to its weekday
number (Monday = 0) and fails on anything else. -/
def decode_wochentag (s : List Char) : Option Nat :=
  if s = "Mo".toList then some 0
  else if s = "Di".toList then some 1
  else if s = "Mi".toList then some 2
  else if s = "Do".toList then some 3
  else if s = "Fr".toList then some 4
  else if s = "Sa".toList then some 5
  else if s = "So".toList then some 6
  else none

/-- Modelled from the spec: tools.kontaktdaten.encode_wochentag, inverse of
decode_wochentag on weekday numbers zero to six. -/
def encode_wochentag (n : Nat) : List Char :=
  match n with
  | 0 => "Mo".toList
  | 1 => "Di".toList
  | 2 => "Mi".toList
  | 3 => "Do".toList
  | 4 => "Fr".toList
  | 5 => "Sa".toList
  | 6 => "So".toList
  | _ => []

/-- Decodes every entry of a list of weekday names, failing (ValidationError
in the source) as soon as one entry does not decode. -/
def decodeAll : List (List Char) → Except Unit (List Nat)
  | [] => .ok []
  | e :: es =>
    match decode_wochentag e with
    | none => .error ()
    | some n =>
      match decodeAll es with
      | .error u => .error u
      | .ok ns => .ok (n :: ns)

/-- The non-empty stripped entries of a weekday input string; models the
comprehension with the if wt filter in parse_wochentage. -/
def nonEmptyEntries (s : List Char) : List (List Char) :=
  (split_strip s).filter (fun e => e ≠ [])

/-- Models parse_wochentage from src/main.py lines 210 to 219: split the
input on commas, strip, drop empty entries, decode each weekday name; with
no entries return none so the key stays unset (all weekdays allowed),
otherwise return the re-encoded sorted set of weekday numbers.  Python
sorted(set(nums)) is the ascending enumeration of the distinct values,
which insertionSort of dedup computes. -/
def parse_wochentage (s : List Char) : Except Unit (Option (List (List Char))) :=
  match decodeAll (nonEmptyEntries s) with
  | .error u => .error u
  | .ok [] => .ok none
  | .ok nums =>
    .ok (some (((nums.dedup).insertionSort (· ≤ ·)).map encode_wochentag))

/-- Position of the first occurrence of an element in a list; length of the
list when absent.  Used to state that deduplication preserves the order of
first occurrences. -/
def firstIdx {α : Type} [DecidableEq α] (a : α) : List α → Nat
  | [] => 0
  | x :: xs => if x = a then 0 else firstIdx a xs + 1

/-- One round of the notification-channel setup loop in
update_kontaktdaten_interactive (src/main.py lines 120 to 144 for Pushover,
146 to 170 for Telegram; both blocks have the same structure).  A round is
either the operator declining the channel, or an entry of credentials
followed by the validation attempt: the attempt either raises a
notification error or issues a numeric code, which the operator echoes. -/
inductive ValidationRound where
  | decline : ValidationRound
  | setup (app_token user_key : List Char) (validation : Except Unit Nat)
      (echoed : List Char) : ValidationRound

/-- Terminal state of the channel setup loop: either the channel entry is
left as the empty dictionary (operator declined) or it holds the entered,
validated credentials. -/
inductive ChannelOutcome where
  | declined : ChannelOutcome
  | validated (app_token user_key : List Char) : ChannelOutcome
deriving DecidableEq

/-- Models the while True loop of the channel setup (src/main.py lines 120
to 144): a decline ends the loop keeping an empty entry; a raised
notification error prints and continues; an issued code is compared against
the stripped echoed input, where a match keeps the credentials and ends the
loop while a mismatch deletes the entry and repeats.  The comparison is
against str(code), modelled by renderNat.  The result is none when the
given rounds run out before the loop ends. -/
def configure_channel : List ValidationRound → Option ChannelOutcome
  | [] => none
  | .decline :: _ => some .declined
  | .setup _ _ (.error _) _ :: rest => configure_channel rest
  | .setup tok key (.ok c) echoed :: rest =>
    if trimChars echoed = renderNat c then some (.validated tok key)
    else configure_channel rest

/-- Models input_kontaktdaten_key (src/main.py lines 222 to 240) for one
key: the state is the current value of the addressed key; each loop
iteration takes the transformed input.  A none input breaks without
assigning; a some input is assigned first and the whole dictionary is
validated afterwards, where success breaks and a ValidationError repeats
the loop with the assigned value still in place.  The validation of the
dictionary is abstracted to a predicate on the key state.  The result is
none when the inputs run out before the loop breaks. -/
def input_kontaktdaten_key {V : Type} (validate : Option V → Bool) :
    Option V → List (Option V) → Option (Option V)
  | _, [] => none
  | st, none :: _ => some st
  | _, some v :: rest =>
    if validate (some v) then some (some v)
    else input_kontaktdaten_key validate (some v) rest

/-- Outcome of the single code-request attempt in gen_code: the probe call
its.selenium_code_anfordern either returns truthy, returns falsy, or raises
a RuntimeError carrying a message. -/
inductive CodeRequestOutcome where
  | success : CodeRequestOutcome
  | failure : CodeRequestOutcome
  | error (msg : List Char) : CodeRequestOutcome
deriving DecidableEq

/-- Observable result of gen_code past the probe call (src/main.py lines
386 to 396): the returned boolean, the postal code handed to the probe and
the error message printed when a RuntimeError was raised. -/
structure GenCodeResult where
  returned : Bool
  used_plz : List Char
  printed_error : Option (List Char)
deriving DecidableEq

/-- The contact sub-dictionary, with the fields main.py reads; a field
being none models the key being absent. -/
structure Kontakt where
  vorname : Option (List Char)
  nachname : Option (List Char)
  phone : Option (List Char)
  notificationReceiver : Option (List Char)
deriving DecidableEq

/-- The configuration dictionary as read by run_search and gen_code; for
each key, none models absence.  The notifications and zeitrahmen payloads
are irrelevant to the claims about these functions and are kept opaque. -/
structure Kontaktdaten where
  codes : Option (List (List Char))
  plz : Option (List Char)
  plz_impfzentren : Option (List (List Char))
  kontakt : Option Kontakt
  notifications : Option Unit
  zeitrahmen : Option Unit
deriving DecidableEq

/-- Python truthiness of an optional string: present and non-empty. -/
def truthyStr : Option (List Char) → Bool
  | some s => s ≠ []
  | none => false

/-- The arguments with which run_search invokes
ImpfterminService.terminsuche; producing this value is the point where the
search loop starts probing. -/
structure SearchInvocation where
  codes : List (List Char)
  plz_impfzentren : List (List Char)
  vorname : List Char
  nachname : List Char
deriving DecidableEq

/-- Models the postal-code list resolution of run_search (src/main.py lines
286 to 292): a truthy legacy top-level plz key replaces the
plz_impfzentren list by the one-element list of that value; otherwise the
plz_impfzentren key is required, a missing one raising. -/
def extract_plz_list (kd : Kontaktdaten) : Except Unit (List (List Char)) :=
  match kd.plz with
  | some s =>
    if s ≠ [] then .ok [s]
    else match kd.plz_impfzentren with
      | none => .error ()
      | some l => .ok l
  | none =>
    match kd.plz_impfzentren with
    | none => .error ()
    | some l => .ok l

/-- Models run_search (src/main.py lines 275 to 314) up to the call of
ImpfterminService.terminsuche: each required key is read inside a try block
whose KeyError handler raises a ValueError, so a missing key yields an
error before any probing.  The kontakt entry is additionally read at its
vorname and nachname keys for the loaded message. -/
def run_search (kd : Kontaktdaten) : Except Unit SearchInvocation :=
  match kd.codes with
  | none => .error ()
  | some codes =>
    match extract_plz_list kd with
    | .error _ => .error ()
    | .ok plzList =>
      match kd.kontakt with
      | none => .error ()
      | some kontakt =>
        match kontakt.vorname, kontakt.nachname with
        | some vn, some nn =>
          match kd.zeitrahmen with
          | none => .error ()
          | some _ =>
            .ok { codes := codes, plz_impfzentren := plzList,
                  vorname := vn, nachname := nn }
        | _, _ => .error ()

/-- The data gen_code extracts from the configuration before any probe
activity. -/
structure GenCodeParams where
  plz : List Char
  mail : List Char
  phone : List Char
deriving DecidableEq

/-- Models the extraction block of gen_code (src/main.py lines 356 to 366):
the first configured postal code, the notification receiver and the phone
number are read inside a try block whose KeyError handler raises a
ValueError.  Indexing an empty postal-code list raises an uncaught
IndexError, also before any probe activity; the +49 phone normalisation is
a pure string rewrite and is not modelled. -/
def gen_code_extract (kd : Kontaktdaten) : Except Unit GenCodeParams :=
  match kd.plz_impfzentren with
  | none => .error ()
  | some plzs =>
    match plzs.head? with
    | none => .error ()
    | some plz0 =>
      match kd.kontakt with
      | none => .error ()
      | some k =>
        match k.notificationReceiver with
        | none => .error ()
        | some mail =>
          match k.phone with
          | none => .error ()
          | some phone => .ok { plz := plz0, mail := mail, phone := phone }

/-- The observable result of the single probe call in gen_code (src/main.py
lines 386 to 396): a truthy return gives True; a falsy return prints the
failure line and gives False; a RuntimeError is caught, its message printed,
and False is returned.  No branch retries. -/
def gen_code_attempt (p : GenCodeParams) : CodeRequestOutcome → GenCodeResult
  | .success => { returned := true, used_plz := p.plz, printed_error := none }
  | .failure => { returned := false, used_plz := p.plz, printed_error := none }
  | .error m => { returned := false, used_plz := p.plz, printed_error := some m }

/-- Models gen_code end to end against a scripted list of probe outcomes:
the configuration is extracted first, erroring before the script is
touched when a required key is missing; otherwise exactly the first
scripted outcome is consumed and the rest of the script is returned
untouched, there being no retry loop.  The result is an error on an empty
script, a model artifact never reached in the theorems. -/
def gen_code_run (kd : Kontaktdaten) (script : List CodeRequestOutcome) :
    Except Unit (GenCodeResult × List CodeRequestOutcome) :=
  match gen_code_extract kd with
  | .error _ => .error ()
  | .ok p =>
    match script with
    | [] => .error ()
    | o :: rest => .ok (gen_code_attempt p o, rest)

/-- The argparse result fields read by the menu loop and the search
subcommand (src/main.py lines 442 to 494). -/
structure Args where
  configure_only : Bool
  read_only : Bool
  configure_notifications : Bool
  retry_sec : Int
deriving DecidableEq

/-- Models the argparse handling of the search retry-sec option (src/main.py
lines 471 to 476 and 491 to 492): an absent option takes the default of
sixty seconds, a given value is stored as is. -/
def cli_retry_sec (given : Option Int) : Int := given.getD 60

/-- Models the menu entry s (src/main.py lines 557 to 561): the entered
value is stored, but a value below thirty is replaced by thirty. -/
def menu_set_retry_sec (entered : Int) : Int :=
  if entered < 30 then 30 else entered

/-- Models subcommand_search (src/main.py lines 399 to 406): with
configure-only set no search runs; otherwise both the read-only and the
interactive branch hand args.retry_sec to the search as check_delay,
unmodified. -/
def subcommand_search_delay (a : Args) : Option Int :=
  if a.configure_only then none else some a.retry_sec

/-- Models validate_args (src/main.py lines 432 to 439): raises exactly
when configure-only and read-only are both set. -/
def validate_args (a : Args) : Except Unit Unit :=
  if a.configure_only && a.read_only then .error () else .ok ()

/-- One operator input to the interactive menu loop (src/main.py lines 516
to 583).  The extended-settings toggles carry no argument; entries that do
not modify args (search, code, install, the extended-settings toggle, and
unrecognised input) are collapsed into passive. -/
inductive MenuOption where
  | passive : MenuOption
  | toggleConfigureOnly : MenuOption
  | toggleReadOnly : MenuOption
  | toggleNotifications : MenuOption
  | setRetrySec (entered : Int) : MenuOption
deriving DecidableEq

/-- Models one iteration of the menu loop acting on args (src/main.py lines
543 to 568): each flag toggle is applied to a copy which is validated
before being assigned, a validation error being caught by the surrounding
handler so that args stays unchanged; the retry-sec entry stores the
clamped value directly. -/
def menu_step (a : Args) : MenuOption → Args
  | .passive => a
  | .toggleConfigureOnly =>
    let na := { a with configure_only := !a.configure_only }
    match validate_args na with
    | .ok _ => na
    | .error _ => a
  | .toggleReadOnly =>
    let na := { a with read_only := !a.read_only }
    match validate_args na with
    | .ok _ => na
    | .error _ => a
  | .toggleNotifications =>
    let na := { a with configure_notifications := !a.configure_notifications }
    match validate_args na with
    | .ok _ => na
    | .error _ => a
  | .setRetrySec n => { a with retry_sec := menu_set_retry_sec n }

/-- Modelled from the spec: a candidate slot as handed around by the
polling engine in tools/its.py, which is not among the sources at hand. -/
structure Slot where
  group : Nat
  date : Nat
  time : Nat
  dose : Nat

/-- Modelled from the spec: the slot fingerprint, the tuple of group
identity, date, time and dose ordinal. -/
def fingerprint (s : Slot) : Nat × Nat × Nat × Nat :=
  (s.group, s.date, s.time, s.dose)

/-- Modelled from the spec: processing one probed slot against the
per-run poll state.  The state is the set of already notified
fingerprints together with the list of fingerprints handed to the
dispatcher so far, in dispatch order: a slot failing the window matcher is
discarded; a matching slot whose fingerprint was already notified is
skipped; otherwise the fingerprint is recorded and the slot is dispatched. -/
def poll_step (matcher : Slot → Bool)
    (acc : List (Nat × Nat × Nat × Nat) × List (Nat × Nat × Nat × Nat))
    (s : Slot) : List (Nat × Nat × Nat × Nat) × List (Nat × Nat × Nat × Nat) :=
  if matcher s then
    if fingerprint s ∈ acc.1 then acc
    else (fingerprint s :: acc.1, acc.2 ++ [fingerprint s])
  else acc

/-- Modelled from the spec: one run of the polling engine over a sequence
of probe cycles, each cycle yielding a list of slots, starting from the
empty notified set.  Returns the final notified set and the fingerprints
handed to the dispatcher, in order. -/
def poll_run (matcher : Slot → Bool) (cycles : List (List Slot)) :
    List (Nat × Nat × Nat × Nat) × List (Nat × Nat × Nat × Nat) :=
  cycles.foldl (fun acc cycle => cycle.foldl (poll_step matcher) acc) ([], [])

/-- Number of occurrences of an element in a list. -/
def countEq {α : Type} [DecidableEq α] (a : α) (l : List α) : Nat :=
  (l.filter (fun x => x = a)).length

/-- A value stored in the zeitrahmen dictionary of the GUI: a string or a
list of strings. -/
inductive ZVal where
  | s (v : List Char) : ZVal
  | l (v : List (List Char)) : ZVal
deriving DecidableEq

/-- Lookup in a dictionary modelled as a key-value list. -/
def dictGet (k : List Char) : List (List Char × ZVal) → Option ZVal
  | [] => none
  | (k1, v) :: rest => if k1 = k then some v else dictGet k rest

/-- The GUI widget state feeding QtKontakt.__get_zeitrahmen: the start date
held by the QDateEdit, the two times held by the QTimeEdits, the checked
weekday names and the two dose checkboxes. -/
structure GuiZeitState where
  day : Nat
  month : Nat
  year : Nat
  start_h : Nat
  start_m : Nat
  end_h : Nat
  end_m : Nat
  wochentage : List (List Char)
  erster : Bool
  zweiter : Bool

/-- Gregorian leap year, the calendar used by QDate. -/
def isLeapYear (y : Nat) : Bool :=
  y % 4 = 0 && (y % 100 ≠ 0 || y % 400 = 0)

/-- Number of days of a month in the Gregorian calendar. -/
def daysInMonth (m y : Nat) : Nat :=
  if m = 2 then (if isLeapYear y then 29 else 28)
  else if m = 4 || m = 6 || m = 9 || m = 11 then 30
  else 31

/-- Validity of a calendar date, as QDate.isValid checks it. -/
def isValidDate (d m y : Nat) : Bool :=
  1 ≤ y && 1 ≤ m && m ≤ 12 && 1 ≤ d && d ≤ daysInMonth m y

/-- The date string produced by __get_zeitrahmen: day, month and year
rendered without padding, joined by dots, as the f-string in
src/tools/gui/qtkontakt.py line 633 does. -/
def render_datum (d m y : Nat) : List Char :=
  renderNat d ++ ['.'] ++ renderNat m ++ ['.'] ++ renderNat y

/-- A time string produced by __get_zeitrahmen: hour and minute rendered
without padding, joined by a colon (qtkontakt.py lines 634 to 635). -/
def render_uhrzeit (h m : Nat) : List Char :=
  renderNat h ++ [':'] ++ renderNat m

/-- Models QDate.fromString with format d.M.yyyy followed by the
QDate.isValid assertion in __set_start_datum: three dot-separated digit
groups, day and month of one or two digits, year of exactly four digits,
denoting a valid calendar date. -/
def qdate_fromString_dMyyyy (cs : List Char) : Option (Nat × Nat × Nat) :=
  match splitOnChar '.' cs with
  | [ds, ms, ys] =>
    if ds.length ≤ 2 && ms.length ≤ 2 && ys.length = 4 then
      match parseDigits ds, parseDigits ms, parseDigits ys with
      | some d, some m, some y =>
        if isValidDate d m y then some (d, m, y) else none
      | _, _, _ => none
    else none
  | _ => none

/-- Models QTime.fromString with format h:m followed by the QTime.isValid
assertion in __set_uhrzeit_datum: two colon-separated digit groups of one
or two digits denoting a valid time of day. -/
def qtime_fromString_hm (cs : List Char) : Option (Nat × Nat) :=
  match splitOnChar ':' cs with
  | [hs, ms] =>
    if hs.length ≤ 2 && ms.length ≤ 2 then
      match parseDigits hs, parseDigits ms with
      | some h, some m => if h ≤ 23 && m ≤ 59 then some (h, m) else none
      | _, _ => none
    else none
  | _ => none

/-- Models QtKontakt.__get_zeitrahmen (qtkontakt.py lines 618 to 640): with
no dose checkbox checked the empty dictionary is produced; otherwise the
five-key dictionary in source order, with the date and times formatted by
the f-strings, the checked weekdays, and einhalten_bei set to beide for
both doses or to the rendered single dose ordinal. -/
def get_zeitrahmen (g : GuiZeitState) : List (List Char × ZVal) :=
  let termine : List Nat :=
    (if g.erster then [1] else []) ++ (if g.zweiter then [2] else [])
  if termine = [] then []
  else
    [("von_datum".toList, .s (render_datum g.day g.month g.year)),
     ("von_uhrzeit".toList, .s (render_uhrzeit g.start_h g.start_m)),
     ("bis_uhrzeit".toList, .s (render_uhrzeit g.end_h g.end_m)),
     ("wochentage".toList, .l g.wochentage),
     ("einhalten_bei".toList,
       .s (if termine.length > 1 then "beide".toList
           else renderNat (termine.headD 1)))]

/-- Models QtKontakt.__set_zeitrahmen (qtkontakt.py lines 725 to 759): an
empty dictionary means no restrictions and succeeds; otherwise the five
keys are read, a missing one raising ValueError, the einhalten_bei and
wochentage setters never fail, and the date and the two time strings must
parse under d.M.yyyy and h:m with the failed assertion raising ValueError. -/
def set_zeitrahmen (z : List (List Char × ZVal)) : Except Unit Unit :=
  if z = [] then .ok ()
  else
    match dictGet "von_datum".toList z, dictGet "von_uhrzeit".toList z,
        dictGet "bis_uhrzeit".toList z, dictGet "wochentage".toList z,
        dictGet "einhalten_bei".toList z with
    | some (.s vd), some (.s vu), some (.s bu), some (.l _), some (.s _) =>
      match qdate_fromString_dMyyyy vd with
      | none => .error ()
      | some _ =>
        match qtime_fromString_hm bu with
        | none => .error ()
        | some _ =>
          match qtime_fromString_hm vu with
          | none => .error ()
          | some _ => .ok ()
    | _, _, _, _, _ => .error ()

/-- A configuration with the legacy top-level plz key set and no
plz_impfzentren key, but all other search fields present. -/
def legacy_kd : Kontaktdaten :=
  { codes := some ["ABCD-1234-EFGH".toList],
    plz := some "68163".toList,
    plz_impfzentren := none,
    kontakt := some { vorname := some "Max".toList,
                      nachname := some "Muster".toList,
                      phone := some "+49157".toList,
                      notificationReceiver := some "m@example.org".toList },
    notifications := none,
    zeitrahmen := some () }

/-- The same configuration with the legacy key dropped and a proper
postal-code list, as gen_code expects it. -/
def legacy_kd_with_zentren : Kontaktdaten :=
  { legacy_kd with
    plz := none
    plz_impfzentren := some ["68163".toList, "69124".toList] }

/-! Helper lemmas about the order-preserving deduplication. -/

theorem mem_uniqueAux {α : Type} [DecidableEq α] (l : List α) :
    ∀ (seen : List α) (a : α), a ∈ uniqueAux seen l ↔ a ∈ l ∧ a ∉ seen := by
  induction l with
  | nil => intro seen a; simp [uniqueAux]
  | cons x xs ih =>
    intro seen a
    by_cases hx : x ∈ seen
    · rw [uniqueAux, if_pos hx, ih]
      constructor
      · rintro ⟨ha, hs⟩; exact ⟨List.mem_cons_of_mem _ ha, hs⟩
      · rintro ⟨ha, hs⟩
        rcases List.mem_cons.1 ha with rfl | ha
        · exact absurd hx hs
        · exact ⟨ha, hs⟩
    · rw [uniqueAux, if_neg hx]
      constructor
      · intro h
        rcases List.mem_cons.1 h with rfl | h
        · exact ⟨List.mem_cons_self _ _, hx⟩
        · have h' := (ih (x :: seen) a).1 h
          exact ⟨List.mem_cons_of_mem _ h'.1,
            fun hs => h'.2 (List.mem_cons_of_mem _ hs)⟩
      · rintro ⟨ha, hs⟩
        by_cases hax : a = x
        · subst hax; exact List.mem_cons_self _ _
        · rcases List.mem_cons.1 ha with rfl | ha
          · exact absurd rfl hax
          · refine List.mem_cons_of_mem _ ((ih (x :: seen) a).2 ⟨ha, ?_⟩)
            intro hmem
            rcases List.mem_cons.1 hmem with h | h
            · exact hax h
            · exact hs h

theorem nodup_uniqueAux {α : Type} [DecidableEq α] (l : List α) :
    ∀ seen : List α, (uniqueAux seen l).Nodup := by
  induction l with
  | nil => intro seen; simp [uniqueAux]
  | cons x xs ih =>
    intro seen
    by_cases hx : x ∈ seen
    · rw [uniqueAux, if_pos hx]; exact ih seen
    · rw [uniqueAux, if_neg hx]
      refine List.nodup_cons.2 ⟨fun hmem => ?_, ih (x :: seen)⟩
      exact ((mem_uniqueAux xs (x :: seen) x).1 hmem).2 (List.mem_cons_self x seen)

theorem sublist_uniqueAux {α : Type} [DecidableEq α] (l : List α) :
    ∀ seen : List α, List.Sublist (uniqueAux seen l) l := by
  induction l with
  | nil => intro seen; simp [uniqueAux]
  | cons x xs ih =>
    intro seen
    by_cases hx : x ∈ seen
    · rw [uniqueAux, if_pos hx]; exact (ih seen).cons x
    · rw [uniqueAux, if_neg hx]; exact (ih (x :: seen)).cons₂ x

theorem firstIdx_uniqueAux {α : Type} [DecidableEq α] (l : List α) :
    ∀ (seen : List α) (a b : α),
      a ∈ uniqueAux seen l → b ∈ uniqueAux seen l →
      (firstIdx a (uniqueAux seen l) ≤ firstIdx b (uniqueAux seen l) ↔
        firstIdx a l ≤ firstIdx b l) := by
  induction l with
  | nil => intro seen a b ha; simp [uniqueAux] at ha
  | cons x xs ih =>
    intro seen a b ha hb
    by_cases hx : x ∈ seen
    · rw [uniqueAux, if_pos hx] at ha hb ⊢
      have hax : x ≠ a := fun h => ((mem_uniqueAux xs seen a).1 ha).2 (h ▸ hx)
      have hbx : x ≠ b := fun h => ((mem_uniqueAux xs seen b).1 hb).2 (h ▸ hx)
      rw [firstIdx, if_neg hax, firstIdx, if_neg hbx, Nat.add_le_add_iff_right]
      exact ih seen a b ha hb
    · rw [uniqueAux, if_neg hx] at ha hb ⊢
      by_cases hax : x = a
      · subst hax
        by_cases hbx : x = b
        · subst hbx; simp
        · simp [firstIdx, hbx]
      · by_cases hbx : x = b
        · subst hbx
          have ha' : a ∈ uniqueAux (x :: seen) xs := by
            rcases List.mem_cons.1 ha with h | h
            · exact absurd h.symm hax
            · exact h
          simp [firstIdx, hax, Ne.symm hax]
        · have ha' : a ∈ uniqueAux (x :: seen) xs := by
            rcases List.mem_cons.1 ha with h | h
            · exact absurd h.symm hax
            · exact h
          have hb' : b ∈ uniqueAux (x :: seen) xs := by
            rcases List.mem_cons.1 hb with h | h
            · exact absurd h.symm hbx
            · exact h
          rw [firstIdx, if_neg hax, firstIdx, if_neg hbx, firstIdx, if_neg hax,
            firstIdx, if_neg hbx, Nat.add_le_add_iff_right,
            Nat.add_le_add_iff_right]
          exact ih (x :: seen) a b ha' hb'

/-- Claim C6: for every comma-separated postal-code or registration-code
input string entered interactively, the stored list contains exactly the
whitespace-stripped entries, with duplicates removed, a sublist of the
stripped entry list whose relative order agrees with the order of first
occurrences. -/
theorem comma_input_stored_unique_stripped (s : List Char) :
    (parse_comma_input s).Nodup ∧
    (∀ e, e ∈ parse_comma_input s ↔ e ∈ split_strip s) ∧
    List.Sublist (parse_comma_input s) (split_strip s) ∧
    (∀ a b, a ∈ parse_comma_input s → b ∈ parse_comma_input s →
      (firstIdx a (parse_comma_input s) ≤ firstIdx b (parse_comma_input s) ↔
        firstIdx a (split_strip s) ≤ firstIdx b (split_strip s))) := by
  refine ⟨nodup_uniqueAux _ _, fun e => ?_, sublist_uniqueAux _ _,
    fun a b ha hb => firstIdx_uniqueAux _ _ a b ha hb⟩
  rw [parse_comma_input, unique, mem_uniqueAux]
  simp

/-- Witness for claim C6 at a concrete input with a duplicate entry. -/
theorem comma_input_stored_unique_stripped_witness :
    ("68163".toList ∈ parse_comma_input "68163, 69124 ,68163".toList ↔
      "68163".toList ∈ split_strip "68163, 69124 ,68163".toList) ∧
    (firstIdx "68163".toList (parse_comma_input "68163, 69124 ,68163".toList) ≤
        firstIdx "69124".toList (parse_comma_input "68163, 69124 ,68163".toList) ↔
      firstIdx "68163".toList (split_strip "68163, 69124 ,68163".toList) ≤
        firstIdx "69124".toList (split_strip "68163, 69124 ,68163".toList)) :=
  ⟨(comma_input_stored_unique_stripped _).2.1 _,
    (comma_input_stored_unique_stripped _).2.2.2 _ _ (by decide) (by decide)⟩

/-- Claim C1, counterexample: a retry-sec value of five given on the
command line reaches the search as a check delay of five, below the
thirty-second floor, so the claimed clamping on every path fails on the
command-line path. -/
theorem cli_retry_sec_reaches_search_unclamped :
    cli_retry_sec (some 5) = 5 ∧
    subcommand_search_delay
      { configure_only := false, read_only := true,
        configure_notifications := false, retry_sec := 5 } = some 5 ∧
    (5 : Int) < 30 := by
  refine ⟨rfl, rfl, by norm_num⟩

/-- Claim C1, amended: the default inter-probe delay is sixty seconds; a
value entered through the interactive menu below thirty is clamped up to
thirty before being stored, while a command-line value reaches the search
unmodified whenever a search runs at all. -/
theorem retry_sec_default_and_menu_clamp :
    cli_retry_sec none = 60 ∧
    (∀ n : Int, n < 30 → menu_set_retry_sec n = 30) ∧
    (∀ n : Int, 30 ≤ n → menu_set_retry_sec n = n) ∧
    (∀ a : Args, a.configure_only = false →
      subcommand_search_delay a = some a.retry_sec) := by
  refine ⟨rfl, fun n h => ?_, fun n h => ?_, fun a h => ?_⟩
  · rw [menu_set_retry_sec, if_pos h]
  · rw [menu_set_retry_sec, if_neg (by omega)]
  · rw [subcommand_search_delay, h]; rfl

/-- Witness for the amended claim C1 at concrete delays. -/
theorem retry_sec_default_and_menu_clamp_witness :
    menu_set_retry_sec 5 = 30 ∧ menu_set_retry_sec 45 = 45 ∧
    subcommand_search_delay
      { configure_only := false, read_only := false,
        configure_notifications := false, retry_sec := 7 } = some 7 :=
  ⟨retry_sec_default_and_menu_clamp.2.1 5 (by norm_num),
    retry_sec_default_and_menu_clamp.2.2.1 45 (by norm_num),
    retry_sec_default_and_menu_clamp.2.2.2 _ rfl⟩

/-- Claim C10: validate_args raises exactly when configure-only and
read-only are both set; every menu step preserves the invariant that not
both are set; and a toggle whose validated copy is rejected leaves args
unchanged. -/
theorem menu_args_invariant :
    (∀ a : Args, validate_args a = .error () ↔
      (a.configure_only && a.read_only) = true) ∧
    (∀ (a : Args) (opt : MenuOption),
      (a.configure_only && a.read_only) = false →
      ((menu_step a opt).configure_only && (menu_step a opt).read_only) = false) ∧
    (∀ a : Args,
      validate_args { a with configure_only := !a.configure_only } = .error () →
      menu_step a .toggleConfigureOnly = a) ∧
    (∀ a : Args,
      validate_args { a with read_only := !a.read_only } = .error () →
      menu_step a .toggleReadOnly = a) ∧
    (∀ a : Args,
      validate_args { a with
        configure_notifications := !a.configure_notifications } = .error () →
      menu_step a .toggleNotifications = a) := by
  refine ⟨fun a => ?_, fun a opt h => ?_, fun a h => ?_, fun a h => ?_,
    fun a h => ?_⟩
  · rw [validate_args]
    cases hc : a.configure_only <;> cases hr : a.read_only <;> simp
  · cases opt <;>
      simp only [menu_step, validate_args] <;>
      cases hc : a.configure_only <;> cases hr : a.read_only <;>
      simp_all
  · rw [menu_step, h]
  · rw [menu_step, h]
  · rw [menu_step, h]

/-- Witness for claim C10: a read-only args value where activating
configure-only is rejected and args stays unchanged, while a fresh args
value keeps the invariant across a toggle. -/
theorem menu_args_invariant_witness :
    menu_step
      { configure_only := false, read_only := true,
        configure_notifications := false, retry_sec := 60 }
      .toggleConfigureOnly =
      { configure_only := false, read_only := true,
        configure_notifications := false, retry_sec := 60 } ∧
    ((menu_step
        { configure_only := false, read_only := false,
          configure_notifications := false, retry_sec := 60 }
        .toggleReadOnly).configure_only &&
      (menu_step
        { configure_only := false, read_only := false,
          configure_notifications := false, retry_sec := 60 }
        .toggleReadOnly).read_only) = false :=
  ⟨menu_args_invariant.2.2.1 _ rfl,
    menu_args_invariant.2.1 _ .toggleReadOnly (by decide)⟩

/-- Claim C9, counterexample: with a transformer yielding an invalid value
on the first prompt and None on the second, input_kontaktdaten_key returns
while the key holds the invalid first value, which is neither valid nor the
value held on entry, because the assignment happens before validation. -/
theorem input_key_leaves_invalid_value :
    input_kontaktdaten_key (fun s => s != some 1) (none : Option Nat)
      [some 1, none] = some (some 1) ∧
    (fun (s : Option Nat) => s != some 1) (some 1) = false ∧
    (some 1 : Option Nat) ≠ none := by
  refine ⟨rfl, rfl, by simp⟩

/-- Claim C9, amended: whenever input_kontaktdaten_key returns, the key
state is valid, or it is unchanged from entry, or the final prompt's
transformer returned None and the key retains the most recently entered
invalid value, assignment happening before validation. -/
theorem input_key_final_state {V : Type} (validate : Option V → Bool)
    (init final : Option V) (inputs : List (Option V))
    (h : input_kontaktdaten_key validate init inputs = some final) :
    validate final = true ∨ final = init ∨
      (∃ v, final = some v ∧ validate (some v) = false ∧ some v ∈ inputs) := by
  induction inputs generalizing init with
  | nil => exact absurd h (by rw [input_kontaktdaten_key]; simp)
  | cons i rest ih =>
    cases i with
    | none =>
      rw [input_kontaktdaten_key] at h
      exact Or.inr (Or.inl (Option.some.inj h).symm)
    | some v =>
      rw [input_kontaktdaten_key] at h
      by_cases hv : validate (some v) = true
      · rw [if_pos hv] at h
        exact Or.inl ((Option.some.inj h) ▸ hv)
      · rw [if_neg hv] at h
        rcases ih (some v) h with hval | heq | ⟨u, hu, huv, humem⟩
        · exact Or.inl hval
        · exact Or.inr (Or.inr ⟨v, heq, Bool.eq_false_iff.2 hv ▸ rfl,
            List.mem_cons_self _ _⟩)
        · exact Or.inr (Or.inr ⟨u, hu, huv, List.mem_cons_of_mem _ humem⟩)

/-- Witness for the amended claim C9 at the concrete counterexample run. -/
theorem input_key_final_state_witness :
    (fun (s : Option Nat) => s != some 1) (some 1) = true ∨
      (some 1 : Option Nat) = none ∨
      (∃ v, (some 1 : Option Nat) = some v ∧
        (fun (s : Option Nat) => s != some 1) (some v) = false ∧
        some v ∈ [some 1, none]) :=
  input_key_final_state (fun s => s != some 1) (none : Option Nat) (some 1)
    [some 1, none] rfl

/-- Helper: a successful extraction pins the used postal code to the first
entry of the configured list. -/
theorem gen_code_extract_plz {kd : Kontaktdaten} {p : GenCodeParams}
    (h : gen_code_extract kd = .ok p) :
    ∀ plzs, kd.plz_impfzentren = some plzs → plzs.head? = some p.plz := by
  intro plzs hp
  simp only [gen_code_extract, hp] at h
  cases hh : plzs.head? with
  | none => simp only [hh] at h; exact Except.noConfusion h
  | some plz0 =>
    simp only [hh] at h
    cases hk : kd.kontakt with
    | none => simp only [hk] at h; exact Except.noConfusion h
    | some k =>
      simp only [hk] at h
      cases hr : k.notificationReceiver with
      | none => simp only [hr] at h; exact Except.noConfusion h
      | some mail =>
        simp only [hr] at h
        cases hph : k.phone with
        | none => simp only [hph] at h; exact Except.noConfusion h
        | some phone =>
          simp only [hph, Except.ok.injEq] at h
          subst h
          simp [hh]

/-- Claim C4: gen_code performs exactly one code-request attempt against
the scripted probe, consuming only the first scripted outcome and leaving
the rest untouched, using the first configured postal code; it returns True
exactly when the attempt succeeds, and a raised RuntimeError produces a
False return with the error message surfaced, without a retry. -/
theorem gen_code_single_attempt (kd : Kontaktdaten) (p : GenCodeParams)
    (o : CodeRequestOutcome) (rest : List CodeRequestOutcome)
    (h : gen_code_extract kd = .ok p) :
    gen_code_run kd (o :: rest) = .ok (gen_code_attempt p o, rest) ∧
    (∀ plzs, kd.plz_impfzentren = some plzs →
      plzs.head? = some (gen_code_attempt p o).used_plz) ∧
    ((gen_code_attempt p o).returned = true ↔ o = .success) ∧
    (∀ m, o = .error m →
      (gen_code_attempt p o).returned = false ∧
      (gen_code_attempt p o).printed_error = some m) := by
  refine ⟨by rw [gen_code_run, h], fun plzs hp => ?_, ?_, fun m hm => ?_⟩
  · have hup : (gen_code_attempt p o).used_plz = p.plz := by
      cases o <;> rfl
    rw [hup]
    exact gen_code_extract_plz h plzs hp
  · cases o <;> simp [gen_code_attempt]
  · subst hm; exact ⟨rfl, rfl⟩

/-- Witness for claim C4: a raising attempt against a full configuration
consumes one scripted outcome and surfaces the message. -/
theorem gen_code_single_attempt_witness :
    gen_code_run legacy_kd_with_zentren
        [.error "Anfrage fehlgeschlagen".toList, .success] =
      .ok (gen_code_attempt
        { plz := "68163".toList, mail := "m@example.org".toList,
          phone := "+49157".toList } (.error "Anfrage fehlgeschlagen".toList),
        [.success]) ∧
    (gen_code_attempt
      { plz := "68163".toList, mail := "m@example.org".toList,
        phone := "+49157".toList }
      (.error "Anfrage fehlgeschlagen".toList)).returned = false :=
  ⟨(gen_code_single_attempt legacy_kd_with_zentren
      { plz := "68163".toList, mail := "m@example.org".toList,
        phone := "+49157".toList }
      (.error "Anfrage fehlgeschlagen".toList) [.success] rfl).1,
    ((gen_code_single_attempt legacy_kd_with_zentren
      { plz := "68163".toList, mail := "m@example.org".toList,
        phone := "+49157".toList }
      (.error "Anfrage fehlgeschlagen".toList) [.success] rfl).2.2.2 _ rfl).1⟩

/-- Helper: the postal-code resolution of run_search fails exactly on a
missing plz_impfzentren key with no truthy legacy plz key. -/
theorem extract_plz_list_error {kd : Kontaktdaten}
    (h1 : kd.plz_impfzentren = none) (h2 : truthyStr kd.plz = false) :
    extract_plz_list kd = .error () := by
  cases hp : kd.plz with
  | none => simp [extract_plz_list, hp, h1]
  | some s =>
    have hs : s = [] := by simpa [truthyStr, hp] using h2
    subst hs
    simp [extract_plz_list, hp, h1]

/-- Claim C5, counterexample: a configuration with the legacy top-level plz
key set and the plz_impfzentren key missing passes run_search and reaches
the probe invocation, so a missing plz_impfzentren does not always raise. -/
theorem run_search_legacy_plz_bypasses_plz_impfzentren :
    run_search legacy_kd =
      .ok { codes := ["ABCD-1234-EFGH".toList],
            plz_impfzentren := ["68163".toList],
            vorname := "Max".toList, nachname := "Muster".toList } ∧
    legacy_kd.plz_impfzentren = none :=
  ⟨rfl, rfl⟩

/-- Claim C5, amended: run_search raises before any probing when codes,
kontakt or zeitrahmen is missing, and when plz_impfzentren is missing
unless the legacy top-level plz key is present and non-empty; gen_code
raises before any probe activity when plz_impfzentren,
notificationReceiver or phone is missing, and with a raising extraction the
probe script is never consulted. -/
theorem missing_config_field_raises :
    (∀ kd : Kontaktdaten,
      kd.codes = none ∨ kd.kontakt = none ∨ kd.zeitrahmen = none ∨
        (kd.plz_impfzentren = none ∧ truthyStr kd.plz = false) →
      run_search kd = .error ()) ∧
    (∀ kd : Kontaktdaten,
      kd.plz_impfzentren = none ∨ kd.kontakt = none ∨
        (∃ k, kd.kontakt = some k ∧
          (k.notificationReceiver = none ∨ k.phone = none)) →
      gen_code_extract kd = .error ()) ∧
    (∀ (kd : Kontaktdaten) (script : List CodeRequestOutcome),
      gen_code_extract kd = .error () → gen_code_run kd script = .error ()) := by
  refine ⟨fun kd h => ?_, fun kd h => ?_, fun kd script h => ?_⟩
  · cases hcodes : kd.codes with
    | none => simp [run_search, hcodes]
    | some codes =>
      rcases h with h | h | h | ⟨h1, h2⟩
      · rw [h] at hcodes; exact Option.noConfusion hcodes
      · cases hex : extract_plz_list kd with
        | error u => simp [run_search, hcodes, hex]
        | ok l => simp [run_search, hcodes, hex, h]
      · cases hex : extract_plz_list kd with
        | error u => simp [run_search, hcodes, hex]
        | ok l =>
          cases hk : kd.kontakt with
          | none => simp [run_search, hcodes, hex, hk]
          | some k =>
            cases hv : k.vorname with
            | none => simp [run_search, hcodes, hex, hk, hv]
            | some vn =>
              cases hn : k.nachname with
              | none => simp [run_search, hcodes, hex, hk, hv, hn]
              | some nn => simp [run_search, hcodes, hex, hk, hv, hn, h]
      · simp [run_search, hcodes, extract_plz_list_error h1 h2]
  · rcases h with h | h | ⟨k, hk, h⟩
    · simp [gen_code_extract, h]
    · cases hpz : kd.plz_impfzentren with
      | none => simp [gen_code_extract, hpz]
      | some plzs =>
        cases hh : plzs.head? with
        | none => simp [gen_code_extract, hpz, hh]
        | some plz0 => simp [gen_code_extract, hpz, hh, h]
    · cases hpz : kd.plz_impfzentren with
      | none => simp [gen_code_extract, hpz]
      | some plzs =>
        cases hh : plzs.head? with
        | none => simp [gen_code_extract, hpz, hh]
        | some plz0 =>
          rcases h with h | h
          · simp [gen_code_extract, hpz, hh, hk, h]
          · cases hr : k.notificationReceiver with
            | none => simp [gen_code_extract, hpz, hh, hk, hr]
            | some mail => simp [gen_code_extract, hpz, hh, hk, hr, h]
  · simp [gen_code_run, h]

/-- Witness for the amended claim C5: a configuration missing only its
codes key is rejected by run_search, and a configuration missing
plz_impfzentren with no legacy plz key is rejected by gen_code with the
probe script never consulted. -/
theorem missing_config_field_raises_witness :
    run_search { legacy_kd with codes := none } = .error () ∧
    gen_code_extract
      { legacy_kd with plz := none, plz_impfzentren := none } = .error () ∧
    gen_code_run { legacy_kd with plz := none, plz_impfzentren := none }
      [.success] = .error () :=
  ⟨missing_config_field_raises.1 _ (Or.inl rfl),
    missing_config_field_raises.2.1 _ (Or.inl rfl),
    missing_config_field_raises.2.2 _ _
      (missing_config_field_raises.2.1 _ (Or.inl rfl))⟩

/-- Claim C2: in the channel setup loop, entered credentials are retained
exactly when the stripped echoed input equals the rendered validation code:
a terminating run retaining credentials did so at a round whose echo
matched its code, a mismatching round deletes the entry and the step
repeats on the remaining rounds, and a matching round retains exactly the
credentials entered in it. -/
theorem channel_validation_retained_iff_match :
    (∀ (rounds : List ValidationRound) (tok key : List Char),
      configure_channel rounds = some (.validated tok key) →
      ∃ (i : Nat) (c : Nat) (echoed : List Char),
        rounds[i]? =
          some (ValidationRound.setup tok key (Except.ok c) echoed) ∧
        trimChars echoed = renderNat c) ∧
    (∀ (tok key : List Char) (c : Nat) (echoed : List Char)
        (rest : List ValidationRound),
      trimChars echoed ≠ renderNat c →
      configure_channel (.setup tok key (.ok c) echoed :: rest) =
        configure_channel rest) ∧
    (∀ (tok key : List Char) (c : Nat) (echoed : List Char)
        (rest : List ValidationRound),
      trimChars echoed = renderNat c →
      configure_channel (.setup tok key (.ok c) echoed :: rest) =
        some (.validated tok key)) := by
  refine ⟨fun rounds => ?_, fun tok key c echoed rest h => ?_,
    fun tok key c echoed rest h => ?_⟩
  · induction rounds with
    | nil => intro tok key h; exact Option.noConfusion h
    | cons r rest ih =>
      intro tok key h
      cases r with
      | decline =>
        rw [configure_channel] at h
        exact ChannelOutcome.noConfusion (Option.some.inj h)
      | setup t k val e =>
        cases val with
        | error u =>
          obtain ⟨i, c, ec, hi, hm⟩ :=
            ih tok key (by rwa [configure_channel] at h)
          exact ⟨i + 1, c, ec, by simpa using hi, hm⟩
        | ok c =>
          by_cases hm : trimChars e = renderNat c
          · rw [configure_channel, if_pos hm] at h
            have h2 := Option.some.inj h
            injection h2 with h3 h4
            subst h3
            subst h4
            exact ⟨0, c, e, by simp, hm⟩
          · rw [configure_channel, if_neg hm] at h
            obtain ⟨i, c', ec, hi, hmm⟩ := ih tok key h
            exact ⟨i + 1, c', ec, by simpa using hi, hmm⟩
  · rw [configure_channel, if_neg h]
  · rw [configure_channel, if_pos h]

/-- Witness for claim C2, the scenario of the spec: code 4821, echo 0000
mismatches so the step repeats and the following decline leaves no
credentials; echo 4821 matches and retains the credentials. -/
theorem channel_validation_retained_iff_match_witness :
    configure_channel
        [.setup "tok".toList "key".toList (.ok 4821) "0000".toList,
          .decline] =
      configure_channel [.decline] ∧
    configure_channel
        [.setup "tok".toList "key".toList (.ok 4821) "4821".toList] =
      some (.validated "tok".toList "key".toList) :=
  ⟨channel_validation_retained_iff_match.2.1 _ _ _ _ _ (by decide),
    channel_validation_retained_iff_match.2.2 _ _ _ _ _ (by decide)⟩

/-- Helper: the polling invariant, that dispatched fingerprints are
pairwise distinct and all recorded in the notified set, is preserved by
processing one slot. -/
theorem poll_step_inv (matcher : Slot → Bool)
    (acc : List (Nat × Nat × Nat × Nat) × List (Nat × Nat × Nat × Nat))
    (s : Slot) (h1 : acc.2.Nodup) (h2 : ∀ fp ∈ acc.2, fp ∈ acc.1) :
    (poll_step matcher acc s).2.Nodup ∧
      ∀ fp ∈ (poll_step matcher acc s).2, fp ∈ (poll_step matcher acc s).1 := by
  rw [poll_step]
  by_cases hm : matcher s = true
  · rw [if_pos hm]
    by_cases hmem : fingerprint s ∈ acc.1
    · rw [if_pos hmem]; exact ⟨h1, h2⟩
    · rw [if_neg hmem]
      constructor
      · refine List.Nodup.append h1 (List.nodup_singleton _) ?_
        intro fp hfp hfp'
        rw [List.mem_singleton] at hfp'
        exact hmem (hfp' ▸ h2 fp hfp)
      · intro fp hfp
        rcases List.mem_append.1 hfp with hfp | hfp
        · exact List.mem_cons_of_mem _ (h2 fp hfp)
        · rw [List.mem_singleton] at hfp
          exact hfp ▸ List.mem_cons_self _ _
  · rw [if_neg hm]; exact ⟨h1, h2⟩

/-- Helper: the polling invariant is preserved across a whole list of
slots. -/
theorem poll_foldl_inv (matcher : Slot → Bool) (slots : List Slot) :
    ∀ acc : List (Nat × Nat × Nat × Nat) × List (Nat × Nat × Nat × Nat),
      acc.2.Nodup → (∀ fp ∈ acc.2, fp ∈ acc.1) →
      (slots.foldl (poll_step matcher) acc).2.Nodup ∧
        ∀ fp ∈ (slots.foldl (poll_step matcher) acc).2,
          fp ∈ (slots.foldl (poll_step matcher) acc).1 := by
  induction slots with
  | nil => intro acc h1 h2; exact ⟨h1, h2⟩
  | cons s rest ih =>
    intro acc h1 h2
    have hstep := poll_step_inv matcher acc s h1 h2
    exact ih (poll_step matcher acc s) hstep.1 hstep.2

/-- Helper: an element occurs at most once in a duplicate-free list. -/
theorem countEq_le_one_of_nodup {α : Type} [DecidableEq α] {l : List α}
    (h : l.Nodup) (a : α) : countEq a l ≤ 1 := by
  induction l with
  | nil => exact Nat.zero_le 1
  | cons x rest ih =>
    rcases List.nodup_cons.1 h with ⟨hx, hrest⟩
    by_cases hxa : x = a
    · subst hxa
      have hnone : rest.filter (fun y => y = x) = [] := by
        refine List.eq_nil_iff_forall_not_mem.2 fun y hy => ?_
        rcases List.mem_filter.1 hy with ⟨hmem, heq⟩
        exact hx ((of_decide_eq_true heq) ▸ hmem)
      rw [countEq, List.filter_cons]
      simp [hnone]
    · rw [countEq, List.filter_cons, if_neg (by simpa using hxa)]
      exact ih hrest

/-- Claim C3: within one run of the polling engine and for every sequence
of probe results, every slot fingerprint is handed to the dispatcher at
most once, even when the same slot reappears in later cycles. -/
theorem poll_fingerprint_dispatched_at_most_once (matcher : Slot → Bool)
    (cycles : List (List Slot)) (fp : Nat × Nat × Nat × Nat) :
    ((poll_run matcher cycles).2).Nodup ∧
    countEq fp ((poll_run matcher cycles).2) ≤ 1 := by
  have main : ∀ (cs : List (List Slot))
      (acc : List (Nat × Nat × Nat × Nat) × List (Nat × Nat × Nat × Nat)),
      acc.2.Nodup → (∀ f ∈ acc.2, f ∈ acc.1) →
      (cs.foldl (fun a cycle => cycle.foldl (poll_step matcher) a) acc).2.Nodup ∧
        ∀ f ∈ (cs.foldl (fun a cycle => cycle.foldl (poll_step matcher) a) acc).2,
          f ∈ (cs.foldl (fun a cycle => cycle.foldl (poll_step matcher) a) acc).1 := by
    intro cs
    induction cs with
    | nil => intro acc h1 h2; exact ⟨h1, h2⟩
    | cons cycle rest ih =>
      intro acc h1 h2
      have hc := poll_foldl_inv matcher cycle acc h1 h2
      exact ih (cycle.foldl (poll_step matcher) acc) hc.1 hc.2
  have hnd : ((poll_run matcher cycles).2).Nodup :=
    (main cycles ([], []) (by simp) (by simp)).1
  exact ⟨hnd, countEq_le_one_of_nodup hnd fp⟩

/-- Helper: every decoded weekday number is below seven. -/
theorem decode_wochentag_lt_seven {e : List Char} {n : Nat}
    (h : decode_wochentag e = some n) : n < 7 := by
  rw [decode_wochentag] at h
  split_ifs at h <;>
    first
      | exact Option.noConfusion h
      | (injection h with h2; omega)

/-- Helper: the weekday encoding is injective on weekday numbers. -/
theorem encode_wochentag_inj {m n : Nat} (hm : m < 7) (hn : n < 7)
    (h : encode_wochentag m = encode_wochentag n) : m = n := by
  interval_cases m <;> interval_cases n <;>
    first
      | rfl
      | exact absurd h (by decide)

/-- Helper: when every entry decodes, decodeAll succeeds with one number
per entry, and its members are exactly the decoded values. -/
theorem decodeAll_total (es : List (List Char))
    (h : ∀ e ∈ es, (decode_wochentag e).isSome) :
    ∃ ns : List Nat, decodeAll es = .ok ns ∧ ns.length = es.length ∧
      ∀ n, n ∈ ns ↔ ∃ e ∈ es, decode_wochentag e = some n := by
  induction es with
  | nil => exact ⟨[], rfl, rfl, by simp⟩
  | cons e es ih =>
    obtain ⟨n, hn⟩ := Option.isSome_iff_exists.1 (h e (List.mem_cons_self e es))
    obtain ⟨ns, hok, hlen, hmem⟩ :=
      ih fun x hx => h x (List.mem_cons_of_mem _ hx)
    refine ⟨n :: ns, ?_, by simp [hlen], fun m => ?_⟩
    · rw [decodeAll, hn, hok]
    · constructor
      · intro hm
        rcases List.mem_cons.1 hm with rfl | hm
        · exact ⟨e, List.mem_cons_self e es, hn⟩
        · obtain ⟨x, hx, hdx⟩ := (hmem m).1 hm
          exact ⟨x, List.mem_cons_of_mem _ hx, hdx⟩
      · rintro ⟨x, hx, hdx⟩
        rcases List.mem_cons.1 hx with rfl | hx
        · rw [hn] at hdx
          exact Option.some.inj hdx ▸ List.mem_cons_self _ _
        · exact List.mem_cons_of_mem _ ((hmem m).2 ⟨x, hx, hdx⟩)

/-- Claim C7: a weekday input string with no non-empty comma-separated
entries makes parse_wochentage return none, leaving the key unset so all
seven weekdays stay allowed; otherwise, provided every entry decodes, the
result is the re-encoding of the distinct entered weekday numbers,
duplicate-free and sorted ascending by weekday number. -/
theorem parse_wochentage_defaults_and_sorted (s : List Char)
    (hdec : ∀ e ∈ nonEmptyEntries s, (decode_wochentag e).isSome) :
    (nonEmptyEntries s = [] → parse_wochentage s = .ok none) ∧
    (nonEmptyEntries s ≠ [] →
      ∃ (out : List (List Char)) (nums : List Nat),
        parse_wochentage s = .ok (some out) ∧
        out = nums.map encode_wochentag ∧
        out.Nodup ∧
        List.Sorted (· < ·) nums ∧
        (∀ n, n ∈ nums ↔
          ∃ e ∈ nonEmptyEntries s, decode_wochentag e = some n)) := by
  constructor
  · intro h
    rw [parse_wochentage, h]
    rfl
  · intro hne
    obtain ⟨ns, hok, hlen, hmem⟩ := decodeAll_total (nonEmptyEntries s) hdec
    have hns : ns ≠ [] := by
      intro h0
      apply hne
      rw [h0] at hlen
      exact List.length_eq_zero.1 hlen.symm
    obtain ⟨a, l, rfl⟩ : ∃ a l, ns = a :: l := by
      cases ns with
      | nil => exact absurd rfl hns
      | cons a l => exact ⟨a, l, rfl⟩
    have hperm : List.Perm (((a :: l).dedup).insertionSort (· ≤ ·))
        ((a :: l).dedup) := List.perm_insertionSort _ _
    have hsortedLe : List.Sorted (· ≤ ·)
        (((a :: l).dedup).insertionSort (· ≤ ·)) :=
      List.sorted_insertionSort _ _
    have hnodupNums : (((a :: l).dedup).insertionSort (· ≤ ·)).Nodup :=
      hperm.nodup_iff.2 (List.nodup_dedup _)
    have hsortedLt : List.Sorted (· < ·)
        (((a :: l).dedup).insertionSort (· ≤ ·)) :=
      hsortedLe.lt_of_le hnodupNums
    have hmemNums : ∀ n, n ∈ ((a :: l).dedup).insertionSort (· ≤ ·) ↔
        ∃ e ∈ nonEmptyEntries s, decode_wochentag e = some n := by
      intro n
      rw [hperm.mem_iff, List.mem_dedup]
      exact hmem n
    refine ⟨(((a :: l).dedup).insertionSort (· ≤ ·)).map encode_wochentag,
      ((a :: l).dedup).insertionSort (· ≤ ·), ?_, rfl, ?_, hsortedLt,
      hmemNums⟩
    · rw [parse_wochentage, hok]
    · refine List.Nodup.map_on ?_ hnodupNums
      intro x hx y hy hxy
      obtain ⟨ex, _, hdx⟩ := (hmemNums x).1 hx
      obtain ⟨ey, _, hdy⟩ := (hmemNums y).1 hy
      exact encode_wochentag_inj (decode_wochentag_lt_seven hdx)
        (decode_wochentag_lt_seven hdy) hxy

/-- Witness for claim C7: concrete weekday inputs, one with only empty
entries and one with duplicates entered out of order. -/
theorem parse_wochentage_defaults_and_sorted_witness :
    parse_wochentage " , ".toList = .ok none ∧
    (∃ (out : List (List Char)) (nums : List Nat),
      parse_wochentage "Di, Mo, Di".toList = .ok (some out) ∧
      out = nums.map encode_wochentag ∧
      out.Nodup ∧
      List.Sorted (· < ·) nums ∧
      (∀ n, n ∈ nums ↔
        ∃ e ∈ nonEmptyEntries "Di, Mo, Di".toList,
          decode_wochentag e = some n)) :=
  ⟨(parse_wochentage_defaults_and_sorted " , ".toList (by decide)).1
      (by decide),
    (parse_wochentage_defaults_and_sorted "Di, Mo, Di".toList (by decide)).2
      (by decide)⟩

/-! Helper lemmas about decimal rendering, for the GUI round trip. -/

theorem renderNatAux_congr :
    ∀ (f1 f2 n : Nat), n < f1 → n < f2 →
      renderNatAux f1 n = renderNatAux f2 n := by
  intro f1
  induction f1 with
  | zero => intro f2 n h1; omega
  | succ f ih =>
    intro f2 n h1 h2
    cases f2 with
    | zero => omega
    | succ f2 =>
      rw [renderNatAux, renderNatAux]
      by_cases h : n < 10
      · rw [if_pos h, if_pos h]
      · rw [if_neg h, if_neg h]
        have hdiv : n / 10 < n := Nat.div_lt_self (by omega) (by omega)
        rw [ih f2 (n / 10) (by omega) (by omega)]

theorem renderNat_lt_ten {n : Nat} (h : n < 10) :
    renderNat n = [digitChar n] := by
  rw [renderNat, renderNatAux, if_pos h]

theorem renderNat_ge_ten {n : Nat} (h : 10 ≤ n) :
    renderNat n = renderNat (n / 10) ++ [digitChar (n % 10)] := by
  rw [renderNat, renderNatAux, if_neg (by omega)]
  have hdiv : n / 10 < n := Nat.div_lt_self (by omega) (by omega)
  rw [renderNatAux_congr n (n / 10 + 1) (n / 10) (by omega) (by omega)]
  rfl

theorem isDigitChar_digitChar {d : Nat} (h : d < 10) :
    isDigitChar (digitChar d) = true := by
  interval_cases d <;> decide

theorem charToDigit_digitChar {d : Nat} (h : d < 10) :
    charToDigit (digitChar d) = d := by
  interval_cases d <;> decide

theorem renderNat_all_digits :
    ∀ n, ∀ c ∈ renderNat n, isDigitChar c = true := by
  intro n
  induction n using Nat.strong_induction_on with
  | _ n ih =>
    by_cases h : n < 10
    · rw [renderNat_lt_ten h]
      intro c hc
      rw [List.mem_singleton] at hc
      exact hc ▸ isDigitChar_digitChar h
    · rw [renderNat_ge_ten (by omega)]
      intro c hc
      rcases List.mem_append.1 hc with hc | hc
      · exact ih (n / 10) (Nat.div_lt_self (by omega) (by omega)) c hc
      · rw [List.mem_singleton] at hc
        exact hc ▸ isDigitChar_digitChar (Nat.mod_lt n (by omega))

theorem charsToNat_append_digit (l : List Char) (c : Char) :
    charsToNat (l ++ [c]) = 10 * charsToNat l + charToDigit c := by
  rw [charsToNat, charsToNat, List.foldl_append]
  rfl

theorem charsToNat_renderNat : ∀ n, charsToNat (renderNat n) = n := by
  intro n
  induction n using Nat.strong_induction_on with
  | _ n ih =>
    by_cases h : n < 10
    · rw [renderNat_lt_ten h, charsToNat]
      simp [charToDigit_digitChar h]
    · rw [renderNat_ge_ten (by omega), charsToNat_append_digit,
        ih (n / 10) (Nat.div_lt_self (by omega) (by omega)),
        charToDigit_digitChar (Nat.mod_lt n (by omega))]
      omega

theorem renderNat_ne_nil (n : Nat) : renderNat n ≠ [] := by
  by_cases h : n < 10
  · rw [renderNat_lt_ten h]; simp
  · rw [renderNat_ge_ten (by omega)]; simp

theorem parseDigits_renderNat (n : Nat) :
    parseDigits (renderNat n) = some n := by
  rw [parseDigits, if_pos, charsToNat_renderNat]
  simp only [ne_eq, renderNat_ne_nil n, not_false_eq_true, decide_True,
    Bool.true_and, List.all_eq_true]
  exact fun c hc => renderNat_all_digits n c hc

theorem renderNat_length_lt_ten {n : Nat} (h : n < 10) :
    (renderNat n).length = 1 := by
  rw [renderNat_lt_ten h]
  rfl

theorem renderNat_length_ge_ten {n : Nat} (h : 10 ≤ n) :
    (renderNat n).length = (renderNat (n / 10)).length + 1 := by
  rw [renderNat_ge_ten h]
  simp

theorem renderNat_length_le_two {n : Nat} (h : n < 100) :
    (renderNat n).length ≤ 2 := by
  by_cases h1 : n < 10
  · rw [renderNat_length_lt_ten h1]; omega
  · rw [renderNat_length_ge_ten (by omega),
      renderNat_length_lt_ten (show n / 10 < 10 by omega)]

theorem renderNat_length_year {n : Nat} (h1 : 1000 ≤ n) (h2 : n ≤ 9999) :
    (renderNat n).length = 4 := by
  rw [renderNat_length_ge_ten (by omega)]
  have hq1 : 100 ≤ n / 10 ∧ n / 10 ≤ 999 := by omega
  rw [renderNat_length_ge_ten (by omega)]
  have hq2 : 10 ≤ n / 10 / 10 ∧ n / 10 / 10 ≤ 99 := by omega
  rw [renderNat_length_ge_ten (by omega)]
  have hq3 : n / 10 / 10 / 10 < 10 := by omega
  rw [renderNat_length_lt_ten hq3]

/-! Helper lemmas about splitting, and the format round trips. -/

theorem isDigitChar_ne_dot {c : Char} (h : isDigitChar c = true) :
    c ≠ '.' := by
  intro heq
  subst heq
  exact absurd h (by decide)

theorem isDigitChar_ne_colon {c : Char} (h : isDigitChar c = true) :
    c ≠ ':' := by
  intro heq
  subst heq
  exact absurd h (by decide)

theorem splitOnChar_no_sep {c : Char} :
    ∀ l : List Char, (∀ x ∈ l, x ≠ c) → splitOnChar c l = [l] := by
  intro l
  induction l with
  | nil => intro h; rfl
  | cons x xs ih =>
    intro h
    have hx : ¬ x = c := h x (List.mem_cons_self x xs)
    rw [splitOnChar, if_neg hx, ih fun y hy => h y (List.mem_cons_of_mem _ hy)]

theorem splitOnChar_append {c : Char} :
    ∀ l1 l2 : List Char, (∀ x ∈ l1, x ≠ c) →
      splitOnChar c (l1 ++ c :: l2) = l1 :: splitOnChar c l2 := by
  intro l1
  induction l1 with
  | nil =>
    intro l2 h
    rw [List.nil_append, splitOnChar, if_pos rfl]
  | cons x xs ih =>
    intro l2 h
    have hx : ¬ x = c := h x (List.mem_cons_self x xs)
    rw [List.cons_append, splitOnChar, if_neg hx,
      ih l2 fun y hy => h y (List.mem_cons_of_mem _ hy)]

theorem daysInMonth_le (m y : Nat) : daysInMonth m y ≤ 31 := by
  rw [daysInMonth]
  split_ifs <;> omega

theorem qdate_parse_render {d m y : Nat} (hvalid : isValidDate d m y = true)
    (hy1 : 1000 ≤ y) (hy2 : y ≤ 9999) :
    qdate_fromString_dMyyyy (render_datum d m y) = some (d, m, y) := by
  have hbounds : 1 ≤ m ∧ m ≤ 12 ∧ 1 ≤ d ∧ d ≤ daysInMonth m y := by
    rw [isValidDate] at hvalid
    simp only [Bool.and_eq_true, decide_eq_true_eq] at hvalid
    exact ⟨hvalid.1.1.1.2, hvalid.1.1.2, hvalid.1.2, hvalid.2⟩
  have hd100 : d < 100 := by
    have := daysInMonth_le m y
    omega
  have hm100 : m < 100 := by omega
  have hsplit : splitOnChar '.' (render_datum d m y) =
      [renderNat d, renderNat m, renderNat y] := by
    have h1 : ∀ x ∈ renderNat d, x ≠ '.' :=
      fun x hx => isDigitChar_ne_dot (renderNat_all_digits _ _ hx)
    have h2 : ∀ x ∈ renderNat m, x ≠ '.' :=
      fun x hx => isDigitChar_ne_dot (renderNat_all_digits _ _ hx)
    have h3 : ∀ x ∈ renderNat y, x ≠ '.' :=
      fun x hx => isDigitChar_ne_dot (renderNat_all_digits _ _ hx)
    rw [render_datum]
    rw [show renderNat d ++ ['.'] ++ renderNat m ++ ['.'] ++ renderNat y =
        renderNat d ++ '.' :: (renderNat m ++ '.' :: renderNat y) by
      simp [List.append_assoc]]
    rw [splitOnChar_append _ _ h1, splitOnChar_append _ _ h2,
      splitOnChar_no_sep _ h3]
  rw [qdate_fromString_dMyyyy]
  simp only [hsplit]
  rw [if_pos]
  · rw [parseDigits_renderNat, parseDigits_renderNat, parseDigits_renderNat]
    simp only [if_pos hvalid]
  · have hld : (renderNat d).length ≤ 2 := renderNat_length_le_two hd100
    have hlm : (renderNat m).length ≤ 2 := renderNat_length_le_two hm100
    have hly : (renderNat y).length = 4 := renderNat_length_year hy1 hy2
    simp [hld, hlm, hly]

theorem qtime_parse_render {h m : Nat} (hh : h ≤ 23) (hm : m ≤ 59) :
    qtime_fromString_hm (render_uhrzeit h m) = some (h, m) := by
  have hsplit : splitOnChar ':' (render_uhrzeit h m) =
      [renderNat h, renderNat m] := by
    have h1 : ∀ x ∈ renderNat h, x ≠ ':' :=
      fun x hx => isDigitChar_ne_colon (renderNat_all_digits _ _ hx)
    have h2 : ∀ x ∈ renderNat m, x ≠ ':' :=
      fun x hx => isDigitChar_ne_colon (renderNat_all_digits _ _ hx)
    rw [render_uhrzeit]
    rw [show renderNat h ++ [':'] ++ renderNat m =
        renderNat h ++ ':' :: renderNat m by simp]
    rw [splitOnChar_append _ _ h1, splitOnChar_no_sep _ h2]
  rw [qtime_fromString_hm]
  simp only [hsplit]
  rw [if_pos]
  · rw [parseDigits_renderNat, parseDigits_renderNat]
    simp [hh, hm]
  · have hlh : (renderNat h).length ≤ 2 := renderNat_length_le_two (by omega)
    have hlm : (renderNat m).length ≤ 2 := renderNat_length_le_two (by omega)
    simp [hlh, hlm]

/-- Claim C8: for every GUI state within the widget invariants, the
dictionary produced by the zeitrahmen getter feeds back into the setter
without error: with no dose checked the empty dictionary is produced and
accepted as no restrictions, and otherwise the produced date and time
strings parse under the formats d.M.yyyy and h:m, so the setter succeeds. -/
theorem zeitrahmen_roundtrip_ok (g : GuiZeitState)
    (hvalid : isValidDate g.day g.month g.year = true)
    (hy1 : 2021 ≤ g.year) (hy2 : g.year ≤ 9999)
    (hsh : g.start_h ≤ 23) (hsm : g.start_m ≤ 59)
    (heh : g.end_h ≤ 23) (hem : g.end_m ≤ 59) :
    ((g.erster = false ∧ g.zweiter = false) → get_zeitrahmen g = []) ∧
    qdate_fromString_dMyyyy (render_datum g.day g.month g.year) =
      some (g.day, g.month, g.year) ∧
    qtime_fromString_hm (render_uhrzeit g.start_h g.start_m) =
      some (g.start_h, g.start_m) ∧
    qtime_fromString_hm (render_uhrzeit g.end_h g.end_m) =
      some (g.end_h, g.end_m) ∧
    set_zeitrahmen (get_zeitrahmen g) = .ok () := by
  have hdate := qdate_parse_render hvalid (by omega) hy2
  have htstart := qtime_parse_render hsh hsm
  have htend := qtime_parse_render heh hem
  refine ⟨fun ⟨h1, h2⟩ => by simp [get_zeitrahmen, h1, h2], hdate, htstart,
    htend, ?_⟩
  cases he : g.erster <;> cases hz : g.zweiter <;>
    simp [get_zeitrahmen, set_zeitrahmen, dictGet, he, hz, hdate, htstart,
      htend]

/-- Witness for claim C8 at a concrete GUI state with the first dose
checked. -/
theorem zeitrahmen_roundtrip_ok_witness :
    set_zeitrahmen (get_zeitrahmen
      { day := 15, month := 6, year := 2021, start_h := 9, start_m := 0,
        end_h := 16, end_m := 30, wochentage := ["Sa".toList, "So".toList],
        erster := true, zweiter := false }) = .ok () :=
  (zeitrahmen_roundtrip_ok _ (by decide) (by decide) (by decide) (by decide)
    (by decide) (by decide) (by decide)).2.2.2.2

end Vaccipy
